import Mathlib

/-!
Verification development for the obsidian-dictaphone repository.

The definitions below are a shallow embedding of the transcription core:
the sentence transform pipeline and the live-editor session state machine
of `AssemblyAITranscriber.ts`, and the audio re-chunker of `Microphone.ts`.
Strings are modelled with Lean `String` (the inputs of interest are ASCII,
so JS UTF-16 indices and Lean character indices agree), machine integers
with `Nat`/`Int`, and the fallible network calls with explicit outcome
parameters.
-/

namespace Dictaphone

/-! ## Sentence transform pipeline (AssemblyAITranscriber.ts lines 24-72) -/

/-- Models the character class matched by the regex `\p{Sentence_Terminal}`
(Unicode property Sentence_Terminal), restricted to the members that can
occur in the inputs considered here; the ASCII members are `.` `!` `?`. -/
def isSentenceTerminal (c : Char) : Bool :=
  c ∈ ['.', '!', '?',
       '։', '؟', '۔', '‼', '‽',
       '⁇', '⁈', '⁉', '。',
       '﹒', '﹖', '﹗', '！', '．', '？', '｡']

/-- `trimSpaces`: removes leading and trailing spaces, exactly the regex
`/^ +| +$/g` of the source (only the space character, not other whitespace). -/
def trimSpaces (s : String) : String :=
  String.mk (((s.toList.dropWhile (· = ' ')).reverse.dropWhile (· = ' ')).reverse)

/-- Worker for `stringToSentences`: walks the character list, accumulating the
current sentence in reverse; each sentence-terminal character closes a
sentence (pushed trimmed, unconditionally), and a nonempty trimmed remainder
is pushed at the end. Mirrors the `matchAll` loop of the source. -/
def sentencesAux : List Char → List Char → List String
  | [], cur =>
    let last := trimSpaces (String.mk cur.reverse)
    if last = "" then [] else [last]
  | c :: rest, cur =>
    if isSentenceTerminal c then
      trimSpaces (String.mk (c :: cur).reverse) :: sentencesAux rest []
    else
      sentencesAux rest (c :: cur)

/-- `stringToSentences` (source lines 34-53): split a text into sentences at
sentence-terminal punctuation, trimming spaces around each sentence. -/
def stringToSentences (text : String) : List String :=
  sentencesAux text.toList []

/-- ASCII lower-casing of a character, modelling the `i` flag of the source
regex (the pattern letters are all ASCII). -/
def charToLower (c : Char) : Char :=
  if 'A' ≤ c ∧ c ≤ 'Z' then Char.ofNat (c.toNat + 32) else c

/-- Case-insensitive anchored match of a lowercase pattern at the head of a
character list, requiring a sentence-terminal character right after the
pattern: the regex `/^(pat)\p{Sentence_Terminal}/iu` for a literal `pat`. -/
def matchesCmdAux : List Char → List Char → Bool
  | [], rest =>
    match rest with
    | c :: _ => isSentenceTerminal c
    | [] => false
  | _ :: _, [] => false
  | p :: ps, c :: cs =>
    if charToLower c = p then matchesCmdAux ps cs else false

/-- Does the sentence match `/^(new line|newline)\p{Sentence_Terminal}/iu`? -/
def matchesNewLineCommand (s : String) : Bool :=
  matchesCmdAux "new line".toList s.toList || matchesCmdAux "newline".toList s.toList

/-- JS `Array.join(sep)` semantics. -/
def joinSep (sep : String) : List String → String
  | [] => ""
  | a :: as => as.foldl (fun acc b => acc ++ sep ++ b) a

/-- The single element of the `transforms` array (source lines 60-72): split
into sentences, replace each "new line"/"newline" command sentence with two
newline characters, rejoin with single spaces. -/
def transformNewline (text : String) : String :=
  joinSep " " ((stringToSentences text).map fun s =>
    if matchesNewLineCommand s then "\n\n" else s)

/-! ## Audio re-chunker (Microphone.ts lines 37-42 and 136-159) -/

/-- A buffer position, `{line, ch}` of the host editor. -/
structure Pos where
  line : Nat
  ch : Nat
deriving DecidableEq, Inhabited

/-- The host editor: line buffer, ordered selection endpoints
(`getCursor('from')` / `getCursor('to')`), and the liveness flag
(`cm.dom.isConnected`). -/
structure EditorS where
  lines : List String
  selFrom : Pos
  selTo : Pos
  connected : Bool
deriving DecidableEq, Inhabited

/-- `getLine(i)` of the host buffer (out-of-range reads give `""`). -/
def getLineStr (lines : List String) (i : Nat) : String :=
  lines.getD i ""

/-- JS `String.split("\x5cn")` worker over a character list. -/
def splitLinesAux : List Char → List Char → List String
  | [], cur => [String.mk cur.reverse]
  | c :: cs, cur =>
    if c = '\n' then String.mk cur.reverse :: splitLinesAux cs []
    else splitLinesAux cs (c :: cur)

/-- Split a string into its lines at newline characters, JS `split` style
(an empty string gives `[""]`, a trailing newline gives a final `""`). -/
def splitLines (s : String) : List String :=
  splitLinesAux s.toList []

/-- First `n` characters of a string. -/
def strTake (s : String) (n : Nat) : String := String.mk (s.toList.take n)

/-- All but the first `n` characters of a string. -/
def strDrop (s : String) (n : Nat) : String := String.mk (s.toList.drop n)

/-- `replaceRange(text, from, to)` of the host buffer: splice `text` over the
character range from `f` to `t` (inclusive line positions, `ch` character
offsets), re-splitting the affected region into lines. -/
def replaceRange (lines : List String) (text : String) (f t : Pos) : List String :=
  let pre := strTake (getLineStr lines f.line) f.ch
  let suf := strDrop (getLineStr lines t.line) t.ch
  lines.take f.line ++ splitLines (pre ++ text ++ suf) ++ lines.drop (t.line + 1)

/-- Clamp a position into the buffer, the way `setCursor` resolves an
out-of-range position. -/
def clampPos (lines : List String) (p : Pos) : Pos :=
  let l := min p.line (lines.length - 1)
  ⟨l, min p.ch (getLineStr lines l).length⟩

/-- The position immediately after text inserted at `f`: same line advanced by
the text length when the text has no newline, otherwise the end of the last
inserted line. -/
def insertEnd (f : Pos) (text : String) : Pos :=
  let parts := splitLines text
  if parts.length ≤ 1 then ⟨f.line, f.ch + text.length⟩
  else ⟨f.line + (parts.length - 1), (parts.getLastD "").length⟩

/-! ## Transcriber session state (AssemblyAITranscriber.ts lines 79-444) -/

/-- `WebSocket.readyState` values. -/
inductive WSReadyState
  | connecting
  | opened
  | closing
  | closed
deriving DecidableEq

/-- Settings read by the transcriber (`postProcess`, `postProcessPrompt`,
`finalModel`); a configured prompt is a nonempty string (JS truthiness). -/
structure Settings where
  postProcess : Bool
  postProcessPrompt : String
  finalModel : String
deriving DecidableEq

/-- The mutable fields of `AssemblyAITranscriber` that the session state
machine reads and writes: `isTranscribing`, `transcribedLines` (the LiveSpan,
sentinel `(-1, -1)` when empty), `activeEditor`, and the websocket. -/
structure TS where
  isTranscribing : Bool
  tlF : Int
  tlT : Int
  activeEditor : Option EditorS
  ws : Option WSReadyState
deriving DecidableEq

/-- Observable actions of a session step, in program order: microphone stop,
websocket termination message and close, the editor-plugin state effects,
the rewrite network call and its completion, the buffer mutations (tagged
with the liveness of the buffer at mutation time and the resulting lines),
and the `setCursor` call with its argument. -/
inductive Action
  | micStop
  | wsTerminate
  | wsClose
  | dispatchPostprocessStart
  | dispatchTranscriptionEnd
  | rewriteCall
  | rewriteComplete
  | bufferReplace (connected : Bool) (lines : List String)
  | setCursorA (p : Pos)
deriving DecidableEq

/-- The editor the non-null assertion `this.activeEditor!` yields. -/
def activeEd (s : TS) : EditorS := s.activeEditor.getD default

/-- Is the active editor present and attached
(`this.activeEditor && cm.dom.isConnected`)? -/
def editorLive (s : TS) : Bool :=
  match s.activeEditor with
  | some e => e.connected
  | none => false

/-- The tail of `stopTranscription` common to all stop paths (source lines
224-232): clear `isTranscribing`, stop the microphone, and, when a websocket
exists and is neither closed nor closing, send the termination message and
close it. -/
def stopTail (s : TS) : TS × List Action :=
  let s1 : TS := { s with isTranscribing := false }
  match s1.ws with
  | some st =>
    if st = .closed ∨ st = .closing then (s1, [Action.micStop])
    else ({ s1 with ws := none }, [Action.micStop, Action.wsTerminate, Action.wsClose])
  | none => (s1, [Action.micStop])

/-- `stopTranscription(true)` past its `isTranscribing` guard: null the active
editor, then run the common teardown tail. -/
def stopImmediateGo (s : TS) : TS × List Action :=
  stopTail { s with activeEditor := none }

/-- A call of `stopTranscription(true)`, guard included. -/
def stopImmediateCall (s : TS) : TS × List Action :=
  if s.isTranscribing then stopImmediateGo s else (s, [])

/-- `checkEditor` (source lines 201-208): when the active editor is missing or
detached, degrade to an immediate stop and report failure. -/
def checkEditor (s : TS) : TS × List Action × Bool :=
  if editorLive s then (s, [], true)
  else
    let r := stopImmediateCall s
    (r.1, r.2, false)

/-- `spanUpdate`: widen `transcribedLines` to include a reported line (source
lines 254-263 and 300-309): from the `(-1, -1)` sentinel take the line itself,
otherwise take min/max. -/
def spanUpdate (tl : Int × Int) (line : Nat) : Int × Int :=
  if tl.1 = -1 then ((line : Int), (line : Int))
  else (min tl.1 (line : Int), max tl.2 (line : Int))

/-- `handlePartialTranscript` (source lines 239-264): liveness check, then
replace the selected range with the text, set the selection from the original
anchor to the position advanced by the text length on the anchor line, and
widen the LiveSpan with the anchor line. -/
def handlePartialTranscript (s : TS) (text : String) : TS × List Action :=
  let c := checkEditor s
  if c.2.2 then
    let e := activeEd c.1
    let f := e.selFrom
    let newLines := replaceRange e.lines text f e.selTo
    let e1 : EditorS :=
      { e with lines := newLines, selFrom := f, selTo := ⟨f.line, f.ch + text.length⟩ }
    let tl := spanUpdate (c.1.tlF, c.1.tlT) f.line
    ({ c.1 with activeEditor := some e1, tlF := tl.1, tlT := tl.2 },
     [Action.bufferReplace e.connected newLines])
  else (c.1, c.2.1)

/-- Does the (JS) string end with a newline character? -/
def endsWithNewline (t : String) : Bool :=
  t.toList.getLast? = some '\n'

/-- The text actually inserted by `handleFinalTranscript`: the transform
pipeline applied to the final transcript, with a trailing space appended
unless the transformed text already ends in a newline. -/
def finalInsertText (text : String) : String :=
  let t := transformNewline text
  if endsWithNewline t then t else t ++ " "

/-- `handleFinalTranscript` (source lines 270-310): liveness check, transform
pipeline, trailing-space rule, replace the selected range, `setCursor` at the
anchor line advanced by the inserted length (recorded as an action), and
widen the LiveSpan with the line of the clamped cursor re-read afterwards. -/
def handleFinalTranscript (s : TS) (text : String) : TS × List Action :=
  let c := checkEditor s
  if c.2.2 then
    let e := activeEd c.1
    let f := e.selFrom
    let insert := finalInsertText text
    let endP : Pos := ⟨f.line, f.ch + insert.length⟩
    let newLines := replaceRange e.lines insert f e.selTo
    let cursor := clampPos newLines endP
    let e1 : EditorS := { e with lines := newLines, selFrom := cursor, selTo := cursor }
    let tl := spanUpdate (c.1.tlF, c.1.tlT) cursor.line
    ({ c.1 with activeEditor := some e1, tlF := tl.1, tlT := tl.2 },
     [Action.bufferReplace e.connected newLines, Action.setCursorA endP])
  else (c.1, c.2.1)

/-- `postProcessTranscript` (source lines 398-431). The network outcome is an
explicit parameter: `none` is a request or JSON-parse failure, `some none` a
response without a `response` field, `some (some r)` a response carrying `r`
(an empty `r` is falsy in JS and treated as missing). Returns the resulting
text and whether a network request was issued. -/
def postProcessTranscript (st : Settings) (net : Option (Option String))
    (text : String) : String × Bool :=
  if st.postProcess = false ∨ st.postProcessPrompt = "" then (text, false)
  else
    match net with
    | some (some r) => if r = "" then (text, true) else (r, true)
    | some none => (text, true)
    | none => (text, true)

/-- The environment a stop call runs in: the transcriber state, the settings,
the rewrite network outcome, and whether the host editor detaches during the
awaited rewrite round-trip. -/
structure World where
  s : TS
  settings : Settings
  net : Option (Option String)
  disconnectDuringRewrite : Bool

/-- `lines.join` of the span read loop of `runPostProcess` (source lines
358-365): the contents of lines `f..t` joined with newlines. -/
def readSpan (lines : List String) (f t : Int) : String :=
  joinSep "\n" ((List.range (t.toNat + 1 - f.toNat)).map fun i =>
    getLineStr lines (f.toNat + i))

/-- `stopTranscription(false)` past its guard, with the `async` interleaving
of `runPostProcess` (source lines 213-233 and 342-390) made explicit.
The synchronous prefix of `runPostProcess` runs first; where it returns
without awaiting (failed liveness check or empty LiveSpan) the whole of
`runPostProcess` completes before the teardown tail; otherwise the prefix
runs up to `await postProcessTranscript`, the teardown tail of
`stopTranscription` runs next, and the continuation (final buffer
replacement, LiveSpan reset, `transcriptionEnd`, editor release) runs last,
against an editor that may have detached during the rewrite. -/
def runPostProcessStop (w : World) : TS × List Action :=
  if editorLive w.s then
    if w.s.tlF = -1 then
      let s2 : TS := { w.s with tlF := -1, tlT := -1 }
      let a2 := if s2.activeEditor.isSome then [Action.dispatchTranscriptionEnd] else []
      let r3 := stopTail s2
      (r3.1, a2 ++ r3.2)
    else
      let e := activeEd w.s
      let inputText := readSpan e.lines w.s.tlF w.s.tlT
      let pp := postProcessTranscript w.settings w.net inputText
      let aSync := [Action.dispatchPostprocessStart]
        ++ (if pp.2 then [Action.rewriteCall] else [])
      let r2 := stopTail w.s
      let e2 : EditorS :=
        if w.disconnectDuringRewrite then { e with connected := false } else e
      let fromP : Pos := ⟨w.s.tlF.toNat, 0⟩
      let toP : Pos := ⟨w.s.tlT.toNat, (getLineStr e2.lines w.s.tlT.toNat).length⟩
      let newLines := replaceRange e2.lines pp.1 fromP toP
      let aCont := [Action.rewriteComplete, Action.bufferReplace e2.connected newLines,
                    Action.dispatchTranscriptionEnd]
      ({ r2.1 with activeEditor := none, tlF := -1, tlT := -1 },
       aSync ++ r2.2 ++ aCont)
  else
    let r1 := stopImmediateCall w.s
    let s2 : TS := { r1.1 with tlF := -1, tlT := -1 }
    let a2 := if s2.activeEditor.isSome then [Action.dispatchTranscriptionEnd] else []
    let r3 := stopTail s2
    (r3.1, r1.2 ++ a2 ++ r3.2)

/-- `stopTranscription(immediate)` (source lines 213-233): a no-op unless
`isTranscribing`; the immediate path nulls the editor and tears down, the
non-immediate path runs `runPostProcess` interleaved with the teardown. -/
def stopTranscription (w : World) (immediate : Bool) : TS × List Action :=
  if w.s.isTranscribing then
    if immediate then stopImmediateGo w.s
    else runPostProcessStop w
  else (w.s, [])

/-- The audio-data callback wired in `startTranscription` (source lines
181-188): append the frame to the wire only when `isTranscribing` and the
websocket is in the OPEN state; otherwise the frame is dropped and the wire
is unchanged. -/
def audioDataCallback (isTranscribing : Bool) (ws : Option WSReadyState)
    (frame : List Int) (wire : List (List Int)) : List (List Int) :=
  if isTranscribing ∧ ws = some .opened then wire ++ [frame] else wire

/-! ## Helper functions over action traces -/

/-- Number of websocket termination messages in a trace. -/
def countTerminate : List Action → Nat
  | [] => 0
  | a :: as => (if a = Action.wsTerminate then 1 else 0) + countTerminate as

/-- Number of microphone stops in a trace. -/
def countMicStop : List Action → Nat
  | [] => 0
  | a :: as => (if a = Action.micStop then 1 else 0) + countMicStop as

/-- Index of the first occurrence of an action in a trace. -/
def idxOfA (a : Action) : List Action → Nat
  | [] => 0
  | x :: xs => if x = a then 0 else idxOfA a xs + 1

/-- Is the action a buffer mutation? -/
def isMutationAct : Action → Bool
  | .bufferReplace _ _ => true
  | _ => false

/-- Is the action a buffer mutation applied to a detached buffer? -/
def mutatesDetached : Action → Bool
  | .bufferReplace c _ => !c
  | _ => false

/-! ## Helper lemmas -/

theorem countTerminate_append (a b : List Action) :
    countTerminate (a ++ b) = countTerminate a + countTerminate b := by
  induction a with
  | nil => simp [countTerminate]
  | cons x xs ih => simp [countTerminate, ih]; omega

theorem stopTail_clears (s : TS) : (stopTail s).1.isTranscribing = false := by
  unfold stopTail
  cases hws : s.ws with
  | none => simp [hws]
  | some st => simp only [hws]; split <;> rfl

theorem stopTail_terminate_le (s : TS) : countTerminate (stopTail s).2 ≤ 1 := by
  unfold stopTail
  cases hws : s.ws with
  | none => simp [countTerminate]
  | some st => simp only [hws]; split <;> simp [countTerminate]

theorem stopTail_terminate_cases (s : TS) :
    (countTerminate (stopTail s).2 = 0 ∧ (stopTail s).1.ws = s.ws)
    ∨ (countTerminate (stopTail s).2 = 1 ∧ (stopTail s).1.ws = none) := by
  unfold stopTail
  cases hws : s.ws with
  | none => left; simp [countTerminate, hws]
  | some st =>
    simp only [hws]
    split
    · left; simp [countTerminate, hws]
    · right; simp [countTerminate]

theorem runPostProcessStop_clears (w : World) :
    (runPostProcessStop w).1.isTranscribing = false := by
  unfold runPostProcessStop
  split
  · split
    · exact stopTail_clears _
    · simpa using stopTail_clears w.s
  · exact stopTail_clears _

theorem stop_inactive (w : World) (b : Bool) :
    (stopTranscription w b).1.isTranscribing = false := by
  unfold stopTranscription
  by_cases h : w.s.isTranscribing = true
  · simp only [h, if_true]
    cases b
    · simpa using runPostProcessStop_clears w
    · simpa using stopTail_clears { w.s with activeEditor := none }
  · simp only [Bool.not_eq_true] at h
    simp [h]

/-! ## Example inputs used by witnesses and counterexamples -/

/-- A small attached host editor. -/
def exEditor : EditorS :=
  { lines := ["hello "], selFrom := ⟨0, 6⟩, selTo := ⟨0, 6⟩, connected := true }

/-- Settings with post-processing enabled and a configured prompt. -/
def exSettingsOn : Settings :=
  { postProcess := true, postProcessPrompt := "p", finalModel := "m" }

/-- Settings with post-processing disabled. -/
def exSettingsOff : Settings :=
  { postProcess := false, postProcessPrompt := "p", finalModel := "m" }

/-- A recording session whose buffer has detached, with a nonempty LiveSpan. -/
def exDetachedState : TS :=
  { isTranscribing := true, tlF := 2, tlT := 4,
    activeEditor := some { exEditor with connected := false },
    ws := some .opened }

/-- World for the C1 failing input and the C4 counterexample. -/
def exDetachedWorld : World :=
  { s := exDetachedState, settings := exSettingsOn, net := none,
    disconnectDuringRewrite := false }

/-! ## Claims -/

/-- C1. The claim states that the LiveSpan is reset to the `(-1, -1)` sentinel
on every transition into Inactive, in particular on the immediate stop taken
when the buffer is detached. The code resets `transcribedLines` only inside
`runPostProcess`, which the `immediate` branch of `stopTranscription` skips:
stopping immediately from a Recording state with LiveSpan `(2, 4)` reaches
Inactive (`isTranscribing = false`) with the LiveSpan still `(2, 4)`, and the
stale span leaks into the next session. -/
theorem c1_immediate_stop_keeps_liveSpan :
    (stopTranscription exDetachedWorld true).1.isTranscribing = false
    ∧ (stopTranscription exDetachedWorld true).1.tlF = 2
    ∧ (stopTranscription exDetachedWorld true).1.tlT = 4
    ∧ ¬((stopTranscription exDetachedWorld true).1.tlF = -1
        ∧ (stopTranscription exDetachedWorld true).1.tlT = -1) := by
  decide

/-- C5. The final-transcript transform splits at sentence-terminal
punctuation, replaces each "new line"/"newline"-plus-terminal sentence
(case-insensitively) with two newlines, leaves other sentences unchanged,
and rejoins with single spaces; on the spec's example input it produces
exactly the claimed output, and "Newline." also matches. -/
theorem c5_newline_transform :
    transformNewline "Hello world. New line. Next thought."
      = "Hello world. \n\n Next thought."
    ∧ transformNewline "Newline." = "\n\n"
    ∧ stringToSentences "Hello world. New line. Next thought."
        = ["Hello world.", "New line.", "Next thought."]
    ∧ matchesNewLineCommand "Hello world." = false
    ∧ matchesNewLineCommand "New line." = true
    ∧ matchesNewLineCommand "Newline." = true
    ∧ (∀ text, transformNewline text =
        joinSep " " ((stringToSentences text).map fun s =>
          if matchesNewLineCommand s then "\n\n" else s)) :=
  ⟨rfl, rfl, rfl, rfl, rfl, rfl, fun _ => rfl⟩

/-- C6. The rewrite returns the input unchanged with no network request when
post-processing is disabled or no prompt is configured, and returns the
original input on every failure: network or parse error, a response missing
the `response` field, and an empty (falsy) `response` field. -/
theorem c6_rewrite_preserves_text :
    (∀ (st : Settings) (net : Option (Option String)) (text : String),
        st.postProcess = false ∨ st.postProcessPrompt = "" →
          postProcessTranscript st net text = (text, false))
    ∧ (∀ (st : Settings) (text : String),
        (postProcessTranscript st none text).1 = text)
    ∧ (∀ (st : Settings) (text : String),
        (postProcessTranscript st (some none) text).1 = text)
    ∧ (∀ (st : Settings) (text : String),
        (postProcessTranscript st (some (some "")) text).1 = text) := by
  refine ⟨?_, ?_, ?_, ?_⟩ <;> intros <;> unfold postProcessTranscript <;>
    first
      | (rename_i h; simp [h])
      | (split <;> simp_all)

theorem c6_rewrite_preserves_text_witness :
    (exSettingsOff.postProcess = false ∨ exSettingsOff.postProcessPrompt = "")
    ∧ postProcessTranscript exSettingsOff none "raw dictation" = ("raw dictation", false) :=
  ⟨Or.inl rfl, c6_rewrite_preserves_text.1 exSettingsOff none "raw dictation" (Or.inl rfl)⟩

/-- C9. A frame delivered while the websocket is not in the OPEN state, or
while the session is not transcribing, is silently dropped: the wire is
unchanged and nothing is queued (the callback's only output is the wire);
when transcribing with an open socket the frame is appended to the wire. -/
theorem c9_dropped_frames :
    (∀ (it : Bool) (ws : Option WSReadyState) (frame : List Int)
        (wire : List (List Int)), ws ≠ some WSReadyState.opened →
        audioDataCallback it ws frame wire = wire)
    ∧ (∀ (ws : Option WSReadyState) (frame : List Int) (wire : List (List Int)),
        audioDataCallback false ws frame wire = wire)
    ∧ (∀ (frame : List Int) (wire : List (List Int)),
        audioDataCallback true (some WSReadyState.opened) frame wire = wire ++ [frame]) := by
  refine ⟨?_, ?_, ?_⟩ <;> intros <;> simp_all [audioDataCallback]

theorem c9_dropped_frames_witness :
    (some WSReadyState.closing ≠ some WSReadyState.opened)
    ∧ audioDataCallback true (some WSReadyState.closing) [1] [] = [] :=
  ⟨by decide, c9_dropped_frames.1 true (some WSReadyState.closing) [1] [] (by decide)⟩

/-- World for the C2 counterexample: a Recording session with a live editor,
enabled post-processing, and a successful rewrite. -/
def exC2World : World :=
  { s := { isTranscribing := true, tlF := 0, tlT := 0,
           activeEditor := some exEditor, ws := some .opened },
    settings := exSettingsOn, net := some (some "Hello!"),
    disconnectDuringRewrite := false }

/-- C2 counterexample. The claim states that the RewritePass completes before
the finalizing teardown (audio capture stopped, channel terminated and
closed). `stopTranscription` does not await `runPostProcess`: on a stop from
Recording with a live editor and a nonempty LiveSpan, the microphone stop
(index 2) and the channel termination and close (indices 3, 4) all occur
before the rewrite completes (index 5). -/
theorem c2_teardown_precedes_rewrite_cex :
    (stopTranscription exC2World false).2 =
      [Action.dispatchPostprocessStart, Action.rewriteCall, Action.micStop,
       Action.wsTerminate, Action.wsClose, Action.rewriteComplete,
       Action.bufferReplace true ["Hello!"], Action.dispatchTranscriptionEnd]
    ∧ idxOfA Action.micStop (stopTranscription exC2World false).2 = 2
    ∧ idxOfA Action.rewriteComplete (stopTranscription exC2World false).2 = 5 := by
  decide

/-- C2 (amended). A stop with `immediate = false` from Recording with a live
editor and nonempty LiveSpan dispatches the PostProcessing transition first
and issues the rewrite request before the teardown, but the teardown (mic
stop, channel terminate and close) proceeds without waiting for the rewrite:
the rewrite completes after it, followed by the final buffer replacement and
the transition to Inactive (`transcriptionEnd`, LiveSpan reset, editor
release); and on every stop path, for every world and both stop modes, the
final state has `isTranscribing = false`. -/
theorem c2_stop_trace_amended (w : World)
    (h1 : w.s.isTranscribing = true) (h2 : editorLive w.s = true)
    (h3 : ¬(w.s.tlF = -1)) :
    stopTranscription w false =
      ({ (stopTail w.s).1 with activeEditor := none, tlF := -1, tlT := -1 },
        [Action.dispatchPostprocessStart]
        ++ (if (postProcessTranscript w.settings w.net
                  (readSpan (activeEd w.s).lines w.s.tlF w.s.tlT)).2 then
              [Action.rewriteCall] else [])
        ++ (stopTail w.s).2
        ++ [Action.rewriteComplete,
            Action.bufferReplace
              (if w.disconnectDuringRewrite then false else (activeEd w.s).connected)
              (replaceRange (activeEd w.s).lines
                (postProcessTranscript w.settings w.net
                  (readSpan (activeEd w.s).lines w.s.tlF w.s.tlT)).1
                ⟨w.s.tlF.toNat, 0⟩
                ⟨w.s.tlT.toNat, (getLineStr (activeEd w.s).lines w.s.tlT.toNat).length⟩),
            Action.dispatchTranscriptionEnd])
    ∧ (stopTail w.s).2.head? = some Action.micStop
    ∧ (∀ (w' : World) (b : Bool), (stopTranscription w' b).1.isTranscribing = false) := by
  refine ⟨?_, ?_, fun w' b => stop_inactive w' b⟩
  · unfold stopTranscription
    simp only [h1, if_true]
    unfold runPostProcessStop
    simp only [h2, if_true, h3, if_false]
    cases hD : w.disconnectDuringRewrite <;> simp [hD]
  · unfold stopTail
    cases hws : w.s.ws with
    | none => simp
    | some st => simp only; split <;> simp

theorem c2_stop_trace_amended_witness :
    exC2World.s.isTranscribing = true
    ∧ editorLive exC2World.s = true
    ∧ ¬(exC2World.s.tlF = -1)
    ∧ (stopTranscription exC2World false).1.isTranscribing = false
    ∧ (stopTail exC2World.s).2.head? = some Action.micStop := by
  have h := c2_stop_trace_amended exC2World rfl rfl (by decide)
  exact ⟨rfl, rfl, by decide, h.2.2 exC2World false, h.2.1⟩

theorem stop_noop (w : World) (b : Bool) (h : w.s.isTranscribing = false) :
    stopTranscription w b = (w.s, []) := by
  unfold stopTranscription
  simp [h]

theorem stopTail_ws_none (s : TS) (h : s.ws = none) :
    countTerminate (stopTail s).2 = 0 := by
  unfold stopTail
  simp [h, countTerminate]

theorem countTerminate_dispatch (b : Bool) :
    countTerminate (if b then [Action.dispatchTranscriptionEnd] else []) = 0 := by
  cases b <;> simp [countTerminate]

/-- C4 counterexample. The claim states that re-entrant stop calls while the
state is already transitioning are no-ops, so at most one teardown sequence
executes. A non-immediate stop from a Recording state whose editor has
detached re-enters `stopTranscription(true)` through `checkEditor` while
`isTranscribing` is still `true`: the inner call runs a full teardown and the
outer call then runs its own teardown tail, so the microphone stop executes
twice in one stop. -/
theorem c4_double_teardown_cex :
    (stopTranscription exDetachedWorld false).2 =
      [Action.micStop, Action.wsTerminate, Action.wsClose, Action.micStop]
    ∧ countMicStop (stopTranscription exDetachedWorld false).2 = 2 := by
  decide

theorem double_tail_terminate (s : TS) :
    countTerminate (stopTail s).2
      + countTerminate (stopTail { (stopTail s).1 with tlF := -1, tlT := -1 }).2 ≤ 1 := by
  unfold stopTail
  cases hws : s.ws with
  | none => simp [countTerminate]
  | some st =>
    simp only [hws]
    by_cases hc : st = WSReadyState.closed ∨ st = WSReadyState.closing
    · rw [if_pos hc]
      simp only
      rw [if_pos hc]
      simp [countTerminate]
    · rw [if_neg hc]
      simp [countTerminate]

theorem stopTranscription_false_eq (w : World) (h : w.s.isTranscribing = true) :
    stopTranscription w false = runPostProcessStop w := by
  unfold stopTranscription
  rw [if_pos h, if_neg (by simp)]

theorem stopTranscription_true_eq (w : World) (h : w.s.isTranscribing = true) :
    stopTranscription w true = stopImmediateGo w.s := by
  unfold stopTranscription
  rw [if_pos h, if_pos rfl]

/-- C4 (amended). `stopTranscription` is a no-op whenever the session is not
Recording; a second stop call issued after any stop call is a no-op (the
first teardown already cleared `isTranscribing`); and the channel teardown is
never duplicated: every stop emits at most one channel-termination message.
The one exception to "at most one teardown sequence" is the re-entrant
degrade path through `checkEditor`, which can invoke the (idempotent)
microphone stop twice. -/
theorem c4_stop_idempotent_amended :
    (∀ (w : World) (b : Bool), w.s.isTranscribing = false →
        stopTranscription w b = (w.s, []))
    ∧ (∀ (w : World) (b c : Bool),
        stopTranscription { w with s := (stopTranscription w b).1 } c
          = ((stopTranscription w b).1, []))
    ∧ (∀ (w : World) (b : Bool), countTerminate (stopTranscription w b).2 ≤ 1) := by
  refine ⟨fun w b h => stop_noop w b h, ?_, ?_⟩
  · intro w b c
    exact stop_noop _ c (stop_inactive w b)
  · intro w b
    by_cases h : w.s.isTranscribing = true
    · cases b
      · rw [stopTranscription_false_eq w h]
        unfold runPostProcessStop
        by_cases hL : editorLive w.s = true
        · rw [if_pos hL]
          by_cases hT : w.s.tlF = -1
          · rw [if_pos hT]
            simp only [countTerminate_append, countTerminate_dispatch]
            simpa using stopTail_terminate_le _
          · rw [if_neg hT]
            have h1 : countTerminate [Action.dispatchPostprocessStart] = 0 := by
              simp [countTerminate]
            have h2 : ∀ (p : Bool), countTerminate
                (if p then [Action.rewriteCall] else []) = 0 := by
              intro p; cases p <;> simp [countTerminate]
            have h3 : ∀ (cn : Bool) (ls : List String), countTerminate
                [Action.rewriteComplete, Action.bufferReplace cn ls,
                 Action.dispatchTranscriptionEnd] = 0 := by
              intro cn ls; simp [countTerminate]
            simp only [countTerminate_append, h1, h2, h3]
            simpa using stopTail_terminate_le _
        · rw [if_neg hL]
          unfold stopImmediateCall
          rw [if_pos h]
          unfold stopImmediateGo
          simp only [countTerminate_append, countTerminate_dispatch]
          have key := double_tail_terminate { w.s with activeEditor := none }
          dsimp only at key ⊢
          omega
      · rw [stopTranscription_true_eq w h]
        unfold stopImmediateGo
        exact stopTail_terminate_le _
    · simp only [Bool.not_eq_true] at h
      rw [stop_noop w _ h]
      simp [countTerminate]

theorem c4_stop_idempotent_amended_witness :
    (stopTranscription exC2World true).1.isTranscribing = false
    ∧ stopTranscription
        { exC2World with s := (stopTranscription exC2World true).1 } false
        = ((stopTranscription exC2World true).1, []) :=
  ⟨by decide, c4_stop_idempotent_amended.2.1 exC2World true false⟩

theorem activeEd_connected (s : TS) (h : editorLive s = true) :
    (activeEd s).connected = true := by
  unfold editorLive at h
  unfold activeEd
  cases hs : s.activeEditor with
  | none => rw [hs] at h; simp at h
  | some e => rw [hs] at h; simpa using h

theorem checkEditor_dead (s : TS) (h : editorLive s = false) :
    checkEditor s = ((stopImmediateCall s).1, (stopImmediateCall s).2, false) := by
  unfold checkEditor
  rw [if_neg (by simp [h])]

theorem checkEditor_live (s : TS) (h : editorLive s = true) :
    checkEditor s = (s, [], true) := by
  unfold checkEditor
  rw [if_pos h]

theorem handlePartial_dead (s : TS) (text : String) (h : editorLive s = false) :
    handlePartialTranscript s text
      = ((stopImmediateCall s).1, (stopImmediateCall s).2) := by
  unfold handlePartialTranscript
  rw [checkEditor_dead s h]
  simp

theorem handleFinal_dead (s : TS) (text : String) (h : editorLive s = false) :
    handleFinalTranscript s text
      = ((stopImmediateCall s).1, (stopImmediateCall s).2) := by
  unfold handleFinalTranscript
  rw [checkEditor_dead s h]
  simp

theorem handlePartial_live_eq (s : TS) (text : String) (h : editorLive s = true) :
    handlePartialTranscript s text =
      ({ s with
          activeEditor := some
            { activeEd s with
                lines := replaceRange (activeEd s).lines text
                  (activeEd s).selFrom (activeEd s).selTo,
                selFrom := (activeEd s).selFrom,
                selTo := ⟨(activeEd s).selFrom.line,
                          (activeEd s).selFrom.ch + text.length⟩ },
          tlF := (spanUpdate (s.tlF, s.tlT) (activeEd s).selFrom.line).1,
          tlT := (spanUpdate (s.tlF, s.tlT) (activeEd s).selFrom.line).2 },
       [Action.bufferReplace true
          (replaceRange (activeEd s).lines text
            (activeEd s).selFrom (activeEd s).selTo)]) := by
  unfold handlePartialTranscript
  rw [checkEditor_live s h]
  simp [activeEd_connected s h]

theorem handleFinal_live_eq (s : TS) (text : String) (h : editorLive s = true) :
    handleFinalTranscript s text =
      ({ s with
          activeEditor := some
            { activeEd s with
                lines := replaceRange (activeEd s).lines (finalInsertText text)
                  (activeEd s).selFrom (activeEd s).selTo,
                selFrom := clampPos
                  (replaceRange (activeEd s).lines (finalInsertText text)
                    (activeEd s).selFrom (activeEd s).selTo)
                  ⟨(activeEd s).selFrom.line,
                   (activeEd s).selFrom.ch + (finalInsertText text).length⟩,
                selTo := clampPos
                  (replaceRange (activeEd s).lines (finalInsertText text)
                    (activeEd s).selFrom (activeEd s).selTo)
                  ⟨(activeEd s).selFrom.line,
                   (activeEd s).selFrom.ch + (finalInsertText text).length⟩ },
          tlF := (spanUpdate (s.tlF, s.tlT)
            (clampPos
              (replaceRange (activeEd s).lines (finalInsertText text)
                (activeEd s).selFrom (activeEd s).selTo)
              ⟨(activeEd s).selFrom.line,
               (activeEd s).selFrom.ch + (finalInsertText text).length⟩).line).1,
          tlT := (spanUpdate (s.tlF, s.tlT)
            (clampPos
              (replaceRange (activeEd s).lines (finalInsertText text)
                (activeEd s).selFrom (activeEd s).selTo)
              ⟨(activeEd s).selFrom.line,
               (activeEd s).selFrom.ch + (finalInsertText text).length⟩).line).2 },
       [Action.bufferReplace true
          (replaceRange (activeEd s).lines (finalInsertText text)
            (activeEd s).selFrom (activeEd s).selTo),
        Action.setCursorA ⟨(activeEd s).selFrom.line,
          (activeEd s).selFrom.ch + (finalInsertText text).length⟩]) := by
  unfold handleFinalTranscript
  rw [checkEditor_live s h]
  simp [activeEd_connected s h]

theorem stopImmediateGo_state (s : TS) :
    (stopImmediateGo s).1.isTranscribing = false
    ∧ (stopImmediateGo s).1.activeEditor = none := by
  unfold stopImmediateGo stopTail
  cases hws : s.ws with
  | none => simp [hws]
  | some st =>
    simp only [hws]
    by_cases hc : st = WSReadyState.closed ∨ st = WSReadyState.closing
    · rw [if_pos hc]; exact ⟨rfl, rfl⟩
    · rw [if_neg hc]; exact ⟨rfl, rfl⟩

theorem stopTail_no_mutation (s : TS) :
    ((stopTail s).2.all fun a => !isMutationAct a) = true := by
  unfold stopTail
  cases hws : s.ws with
  | none => simp [isMutationAct]
  | some st => simp only [hws]; split <;> simp [isMutationAct]

theorem stopImmediateCall_no_mutation (s : TS) :
    ((stopImmediateCall s).2.all fun a => !isMutationAct a) = true := by
  unfold stopImmediateCall stopImmediateGo
  split
  · exact stopTail_no_mutation _
  · simp

/-- World for the C3 counterexample: a live editor at stop time that detaches
during the awaited rewrite round-trip. -/
def exC3World : World :=
  { s := { isTranscribing := true, tlF := 0, tlT := 0,
           activeEditor := some exEditor, ws := some .opened },
    settings := exSettingsOff, net := none, disconnectDuringRewrite := true }

/-- C3 counterexample. The claim states that every buffer mutation is
immediately preceded by a liveness check, degrading to an immediate stop
rather than mutating a detached buffer. The post-process replacement is
checked only at the start of `runPostProcess`, before the awaited rewrite:
when the editor detaches during the rewrite round-trip, the continuation
still mutates the now-detached buffer. -/
theorem c3_detached_mutation_cex :
    ((stopTranscription exC3World false).2.any mutatesDetached) = true
    ∧ (stopTranscription exC3World false).2 =
        [Action.dispatchPostprocessStart, Action.micStop, Action.wsTerminate,
         Action.wsClose, Action.rewriteComplete,
         Action.bufferReplace false ["hello "], Action.dispatchTranscriptionEnd] := by
  decide

/-- C3 (amended). The synchronous handlers and the start of post-processing
are guarded by liveness checks: with a dead editor, the partial and final
handlers perform no buffer mutation and (when recording) degrade to an
immediate stop that clears the session; with a live editor their single
mutation targets an attached buffer; and a stop whose liveness check fails
performs no buffer mutation at all. The post-process replacement, however, is
checked only before the rewrite's suspension: if the buffer detaches during
the rewrite, the continuation mutates the detached buffer. -/
theorem c3_liveness_guard_amended :
    (∀ (s : TS) (text : String), editorLive s = false →
        ((handlePartialTranscript s text).2.all fun a => !isMutationAct a) = true
      ∧ ((handleFinalTranscript s text).2.all fun a => !isMutationAct a) = true)
    ∧ (∀ (s : TS) (text : String), editorLive s = false → s.isTranscribing = true →
        ((handlePartialTranscript s text).1.isTranscribing = false
          ∧ (handlePartialTranscript s text).1.activeEditor = none)
      ∧ ((handleFinalTranscript s text).1.isTranscribing = false
          ∧ (handleFinalTranscript s text).1.activeEditor = none))
    ∧ (∀ (s : TS) (text : String), editorLive s = true →
        ((handlePartialTranscript s text).2.all fun a => !mutatesDetached a) = true
      ∧ ((handleFinalTranscript s text).2.all fun a => !mutatesDetached a) = true)
    ∧ (∀ (w : World), editorLive w.s = false → w.s.isTranscribing = true →
        ((stopTranscription w false).2.all fun a => !isMutationAct a) = true)
    ∧ (∀ (w : World), w.s.isTranscribing = true → editorLive w.s = true →
        ¬(w.s.tlF = -1) → w.disconnectDuringRewrite = true →
        ((stopTranscription w false).2.any mutatesDetached) = true) := by
  refine ⟨?_, ?_, ?_, ?_, ?_⟩
  · intro s text h
    rw [handlePartial_dead s text h, handleFinal_dead s text h]
    exact ⟨stopImmediateCall_no_mutation s, stopImmediateCall_no_mutation s⟩
  · intro s text h ht
    rw [handlePartial_dead s text h, handleFinal_dead s text h]
    unfold stopImmediateCall
    rw [if_pos ht]
    exact ⟨stopImmediateGo_state s, stopImmediateGo_state s⟩
  · intro s text h
    rw [handlePartial_live_eq s text h, handleFinal_live_eq s text h]
    constructor <;> simp [mutatesDetached]
  · intro w h ht
    rw [stopTranscription_false_eq w ht]
    unfold runPostProcessStop
    rw [if_neg (by simp [h])]
    simp only [List.all_append, Bool.and_eq_true]
    refine ⟨⟨stopImmediateCall_no_mutation _, ?_⟩, stopTail_no_mutation _⟩
    split <;> simp [isMutationAct]
  · intro w ht hL hT hD
    rw [stopTranscription_false_eq w ht]
    unfold runPostProcessStop
    rw [if_pos hL, if_neg hT]
    simp [hD, mutatesDetached]

theorem c3_liveness_guard_amended_witness :
    editorLive exDetachedState = false
    ∧ ((handlePartialTranscript exDetachedState "x").2.all
        fun a => !isMutationAct a) = true :=
  ⟨rfl, (c3_liveness_guard_amended.1 exDetachedState "x" rfl).1⟩

theorem spanUpdate_cast (a b x : Nat) :
    spanUpdate ((a : Int), (b : Int)) x
      = (((min a x : Nat) : Int), ((max b x : Nat) : Int)) := by
  unfold spanUpdate
  have hne : ¬((a : Int) = -1) := by omega
  rw [if_neg hne]
  simp [Nat.cast_min, Nat.cast_max]

theorem spanUpdate_foldl (ls : List Nat) : ∀ (a b : Nat),
    List.foldl spanUpdate ((a : Int), (b : Int)) ls
      = (((ls.foldl min a : Nat) : Int), ((ls.foldl max b : Nat) : Int)) := by
  induction ls with
  | nil => intro a b; simp
  | cons x xs ih =>
    intro a b
    rw [List.foldl_cons, spanUpdate_cast, ih, List.foldl_cons, List.foldl_cons]

theorem splitLinesAux_no_nl (cs : List Char) : ∀ (cur : List Char),
    (∀ c ∈ cs, ¬(c = '\n')) →
    splitLinesAux cs cur = [String.mk (cur.reverse ++ cs)] := by
  induction cs with
  | nil => intro cur _; simp [splitLinesAux]
  | cons c cs ih =>
    intro cur h
    have hc : ¬(c = '\n') := h c (by simp)
    unfold splitLinesAux
    rw [if_neg hc, ih (c :: cur) (fun c' hc' => h c' (by simp [hc']))]
    simp

theorem insertEnd_no_nl (f : Pos) (text : String) (h : '\n' ∉ text.toList) :
    insertEnd f text = ⟨f.line, f.ch + text.length⟩ := by
  unfold insertEnd splitLines
  rw [splitLinesAux_no_nl text.toList [] (fun c hc hcn => h (hcn ▸ hc))]
  simp

/-- C7. When the liveness check passes, the partial-transcript handler
replaces the selected range with the event's text, sets the selection from
the original anchor to the anchor advanced by the text length (for
newline-free text, the position immediately after the inserted text), and
widens the LiveSpan with the anchor line via min/max; folding the LiveSpan
update from the empty sentinel over any nonempty sequence of reported lines
yields exactly (min of the lines, max of the lines). -/
theorem c7_partial_update :
    (∀ (s : TS) (text : String), editorLive s = true →
      handlePartialTranscript s text =
        ({ s with
            activeEditor := some
              { activeEd s with
                  lines := replaceRange (activeEd s).lines text
                    (activeEd s).selFrom (activeEd s).selTo,
                  selFrom := (activeEd s).selFrom,
                  selTo := ⟨(activeEd s).selFrom.line,
                            (activeEd s).selFrom.ch + text.length⟩ },
            tlF := (spanUpdate (s.tlF, s.tlT) (activeEd s).selFrom.line).1,
            tlT := (spanUpdate (s.tlF, s.tlT) (activeEd s).selFrom.line).2 },
         [Action.bufferReplace true
            (replaceRange (activeEd s).lines text
              (activeEd s).selFrom (activeEd s).selTo)]))
    ∧ (∀ (f : Pos) (text : String), '\n' ∉ text.toList →
        (⟨f.line, f.ch + text.length⟩ : Pos) = insertEnd f text)
    ∧ (∀ (l : Nat) (ls : List Nat),
        List.foldl spanUpdate ((-1 : Int), (-1 : Int)) (l :: ls)
          = (((ls.foldl min l : Nat) : Int), ((ls.foldl max l : Nat) : Int))) := by
  refine ⟨fun s text h => handlePartial_live_eq s text h, ?_, ?_⟩
  · intro f text h
    exact (insertEnd_no_nl f text h).symm
  · intro l ls
    rw [List.foldl_cons]
    have h0 : spanUpdate ((-1 : Int), (-1 : Int)) l = ((l : Int), (l : Int)) := by
      unfold spanUpdate
      rw [if_pos rfl]
    rw [h0, spanUpdate_foldl]

/-- State of the C7 and C10 witnesses: a live one-line editor with a
collapsed selection at the end of the line and an empty LiveSpan. -/
def exPartialState : TS :=
  { isTranscribing := true, tlF := -1, tlT := -1,
    activeEditor := some { lines := ["Hello"], selFrom := ⟨0, 5⟩,
                           selTo := ⟨0, 5⟩, connected := true },
    ws := some .opened }

theorem c7_partial_update_witness :
    editorLive exPartialState = true
    ∧ handlePartialTranscript exPartialState "hi"
        = ({ isTranscribing := true, tlF := 0, tlT := 0,
             activeEditor := some { lines := ["Hellohi"], selFrom := ⟨0, 5⟩,
                                    selTo := ⟨0, 7⟩, connected := true },
             ws := some .opened },
           [Action.bufferReplace true ["Hellohi"]]) := by
  have h := c7_partial_update.1 exPartialState "hi" rfl
  exact ⟨rfl, h.trans (by decide)⟩

/-- C10. When the liveness check passes, the cursor passed to `setCursor` by
the final-transcript handler is always the original anchor line with the
column advanced by the inserted length; for the "New line." command the
inserted text is two newlines, and that position (line 0, column 7 from
anchor (0,5)) differs from the true end of the inserted text (line 2,
column 0). -/
theorem c10_setCursor_formula :
    (∀ (s : TS) (text : String), editorLive s = true →
      (handleFinalTranscript s text).2 =
        [Action.bufferReplace true
           (replaceRange (activeEd s).lines (finalInsertText text)
             (activeEd s).selFrom (activeEd s).selTo),
         Action.setCursorA ⟨(activeEd s).selFrom.line,
           (activeEd s).selFrom.ch + (finalInsertText text).length⟩])
    ∧ finalInsertText "New line." = "\n\n"
    ∧ insertEnd ⟨0, 5⟩ "\n\n" = ⟨2, 0⟩
    ∧ (⟨0, 5 + (finalInsertText "New line.").length⟩ : Pos)
        ≠ insertEnd ⟨0, 5⟩ "\n\n" := by
  refine ⟨?_, rfl, by decide, by decide⟩
  intro s text h
  rw [handleFinal_live_eq s text h]

theorem c10_setCursor_formula_witness :
    editorLive exPartialState = true
    ∧ (handleFinalTranscript exPartialState "New line.").2 =
        [Action.bufferReplace true ["Hello", "", ""], Action.setCursorA ⟨0, 7⟩] := by
  have h := c10_setCursor_formula.1 exPartialState "New line." rfl
  exact ⟨rfl, h.trans (by decide)⟩

end Dictaphone
